import Mathlib

/-!
Shallow embedding of tiny-theme-switcher (src/main.py and src/rofi.py).

Conventions of the embedding:
* Machine state that the program reads and writes through the filesystem is
  passed explicitly: the pointer file and the themes database as an `FS`
  record, the config fragments touched by `Theme.apply` as an `AppFS` record.
* A text file's content is represented by its list of newline-separated
  lines.  Python's `read().split("\n")` of a file holding `"\n".join(lines)`
  is exactly `lines`, so the split/join boundary is a bijection between file
  bytes and the newline-free line lists used here; byte equality of files is
  equality of line lists.
* Fallible Python code (KeyError, TypeError, missing files) is embedded with
  `Except`/`Option` results.
-/

namespace TinyThemeSwitcher

/-- Theme dataclass of src/main.py: five optional string fields, each
defaulting to `None`. -/
structure Theme where
  wallpaper : Option String := none
  rofi_theme : Option String := none
  polybar_theme : Option String := none
  gtk_theme : Option String := none
  alacritty_theme : Option String := none
deriving DecidableEq, Repr

/-- Python `Theme()`: every field left at its `None` default. -/
def Theme.empty : Theme := {}

/-- Python truthiness of an optional string: `if x:` holds iff `x` is a
non-empty string (`None` and `""` are falsy). -/
def optTruthy : Option String → Bool
  | none => false
  | some s => !(s == "")

/-- Python `<` on characters: comparison of code points. -/
def charLtB (a b : Char) : Bool := Nat.blt a.toNat b.toNat

/-- Python `<` on strings as character lists: lexicographic comparison of
code points, a proper prefix being smaller. -/
def charListLtB : List Char → List Char → Bool
  | [], [] => false
  | [], _ :: _ => true
  | _ :: _, [] => false
  | c :: cs, d :: ds =>
    if charLtB c d then true else if charLtB d c then false else charListLtB cs ds

/-- Python `<` on strings. -/
def strLtB (a b : String) : Bool := charListLtB a.data b.data

/-- Python `<=` on strings, the total order `sorted` uses. -/
def strLeB (a b : String) : Bool := !(strLtB b a)

/-- Python `str.strip()`: drop leading and trailing whitespace. -/
def pyStrip (s : String) : String :=
  String.mk (((s.data.dropWhile Char.isWhitespace).reverse.dropWhile Char.isWhitespace).reverse)

/-- A parsed YAML mapping value for one theme entry, as produced by
`yaml.safe_load`: field name to nullable string value.  A key that is absent
from the list models an absent YAML field; a `none` value models an explicit
YAML null. -/
abbrev RawEntry := List (String × Option String)

/-- The field names of the Theme dataclass, in declaration order. -/
def themeFieldNames : List String :=
  ["wallpaper", "rofi_theme", "polybar_theme", "gtk_theme", "alacritty_theme"]

/-- First value bound to key `k` in a raw entry, if any. -/
def lookupField (e : RawEntry) (k : String) : Option (Option String) :=
  match e with
  | [] => none
  | (k', v) :: rest => if k' = k then some v else lookupField rest k

/-- The record built by `Theme(**data)` when every key of `data` is a known
field: present fields take their (possibly null) value, absent fields take
the `None` default. -/
def themeOfKnownEntry (e : RawEntry) : Theme :=
  { wallpaper := (lookupField e "wallpaper").getD none
    rofi_theme := (lookupField e "rofi_theme").getD none
    polybar_theme := (lookupField e "polybar_theme").getD none
    gtk_theme := (lookupField e "gtk_theme").getD none
    alacritty_theme := (lookupField e "alacritty_theme").getD none }

/-- Python `Theme(**data)`: a keyword that is not a dataclass field raises
`TypeError`; otherwise fields are filled from `data`, defaulting to `None`. -/
def themeOfEntry (e : RawEntry) : Except String Theme :=
  if e.all (fun kv => themeFieldNames.contains kv.1) then
    .ok (themeOfKnownEntry e)
  else
    .error "TypeError: unexpected keyword argument"

/-- Result of `asdict(theme)` as serialized by `yaml.safe_dump` (which sorts
mapping keys): all five fields present, in alphabetical order. -/
def Theme.asdict (t : Theme) : RawEntry :=
  [("alacritty_theme", t.alacritty_theme), ("gtk_theme", t.gtk_theme),
   ("polybar_theme", t.polybar_theme), ("rofi_theme", t.rofi_theme),
   ("wallpaper", t.wallpaper)]

/-- Content of the themes database file `themes.yaml`, as seen through
`yaml.safe_load`: the file may be missing, hold a document whose top level is
not a mapping, or hold a mapping from theme name to raw entry. -/
inductive DbFile where
  | missing
  | nonMapping
  | mapping (entries : List (String × RawEntry))
deriving DecidableEq, Repr

/-- The dict comprehension of `load_themes`: build a `Theme` from each raw
entry in order, propagating the first `TypeError`. -/
def loadEntries : List (String × RawEntry) → Except String (List (String × Theme))
  | [] => .ok []
  | (n, e) :: rest =>
    match themeOfEntry e, loadEntries rest with
    | .ok t, .ok ts => .ok ((n, t) :: ts)
    | .error msg, _ => .error msg
    | .ok _, .error msg => .error msg

/-- `Manager.load_themes`: a missing file and a non-mapping document both give
the empty mapping; otherwise each entry is parsed with `Theme(**data)`. -/
def load_themes : DbFile → Except String (List (String × Theme))
  | .missing => .ok []
  | .nonMapping => .ok []
  | .mapping es => loadEntries es

/-- In-memory themes mapping: a Python dict from name to `Theme`, embedded as
an association list in insertion order with (in reachable states) distinct
keys. -/
abbrev ThemeMap := List (String × Theme)

/-- The key list of a themes dict. -/
def keys (l : ThemeMap) : List String := l.map Prod.fst

/-- Python `dict` lookup: the value at a key (first occurrence). -/
def dictLookup (l : ThemeMap) (n : String) : Option Theme :=
  match l with
  | [] => none
  | (k, v) :: rest => if k = n then some v else dictLookup rest n

/-- Python `dict` assignment `d[n] = t`: update in place if the key exists,
else append. -/
def dictInsert (l : ThemeMap) (n : String) (t : Theme) : ThemeMap :=
  if (keys l).contains n then
    l.map (fun kv => if kv.1 = n then (n, t) else kv)
  else
    l ++ [(n, t)]

/-- Python `del d[n]`: drop the entry with key `n`. -/
def dictErase (l : ThemeMap) (n : String) : ThemeMap :=
  l.filter (fun kv => kv.1 ≠ n)

/-- Top-level entries sorted by name, as `yaml.safe_dump` emits them. -/
def sortEntries (l : ThemeMap) : ThemeMap :=
  l.insertionSort (fun a b => strLeB a.1 b.1 = true)

/-- `Manager.dump`: serialize the full themes mapping into the database file,
each theme through `asdict`, with `safe_dump` sorting the keys. -/
def dump (themes : ThemeMap) : DbFile :=
  .mapping ((sortEntries themes).map (fun nt => (nt.1, nt.2.asdict)))

/-- External state touched by Manager bookkeeping: the pointer file `theme`
(`none` when the file does not exist, `some c` when it holds content `c`) and
the themes database `themes.yaml`. -/
structure FS where
  pointer : Option String := none
  db : DbFile := .missing
deriving DecidableEq, Repr

/-- In-memory Manager attributes: the themes dict, the selected name
`self.themename`, and the selected record `self.theme`. -/
structure MState where
  themes : ThemeMap
  themename : Option String
  theme : Theme
deriving DecidableEq, Repr

/-- Keys of the themes dict in the order `sorted()` yields. -/
def sortedKeys (themes : ThemeMap) : List String :=
  (keys themes).insertionSort (fun a b => strLeB a b = true)

/-- The name `sorted(self.themes.keys())[0] if self.themes else None`:
alphabetically first key, or `none` when the dict is empty. -/
def defaultName (themes : ThemeMap) : Option String :=
  (sortedKeys themes).head?

/-- `Manager.use_default_theme`: select the alphabetically first name (or
`None`), and when no name results, set the selected record to `Theme()`. -/
def use_default_theme (st : MState) : MState :=
  let st' := { st with themename := defaultName st.themes }
  if st'.themename = none then { st' with theme := Theme.empty } else st'

/-- Python `self.themename not in self.themes.keys()`, negated: a `None`
name is never a member of the (string) key view. -/
def memKeys : Option String → ThemeMap → Bool
  | none, _ => false
  | some n, l => (keys l).contains n

/-- Result of a `select_theme` call: the updated in-memory state, the updated
external files, and whether the pointer file was written. -/
structure SelectResult where
  st : MState
  fs : FS
  wrote : Bool
deriving DecidableEq, Repr

/-- `Manager.select_theme`.  Mirrors src/main.py lines 113-138: a truthy
argument wins, else the stripped pointer-file content if that file exists,
else the default rule; then, if the chosen name is not a key, the default
rule again with a pointer write when it yields a name, and otherwise a
pointer write exactly when the argument was not `None`; finally
`self.theme = self.themes[self.themename]` when a name is selected. -/
def select_theme (st : MState) (fs : FS) (arg : Option String) : SelectResult :=
  let st1 :=
    if optTruthy arg then { st with themename := arg }
    else
      match fs.pointer with
      | some content => { st with themename := some (pyStrip content) }
      | none => use_default_theme st
  let r :=
    if memKeys st1.themename st1.themes = false then
      let st2 := use_default_theme st1
      match st2.themename with
      | some n => SelectResult.mk st2 { fs with pointer := some n } true
      | none => SelectResult.mk st2 fs false
    else if arg.isSome then
      SelectResult.mk st1 { fs with pointer := st1.themename } true
    else
      SelectResult.mk st1 fs false
  match r.st.themename with
  | some n =>
    match dictLookup r.st.themes n with
    | some t => SelectResult.mk { r.st with theme := t } r.fs r.wrote
    | none => r
  | none => r

/-- `Manager.__init__` after `generate_paths`: `load_themes` (whose
`TypeError` propagates) followed by `select_theme()` with no argument. -/
def managerInit (fs : FS) : Except String SelectResult :=
  match load_themes fs.db with
  | .error msg => .error msg
  | .ok themes =>
    .ok (select_theme { themes := themes, themename := none, theme := Theme.empty } fs none)

/-- `Manager.append`: store `Theme()` under `name`, then `dump`. -/
def appendTheme (st : MState) (fs : FS) (name : String) : MState × FS :=
  let themes' := dictInsert st.themes name Theme.empty
  ({ st with themes := themes' }, { fs with db := dump themes' })

/-- `Manager.remove`: `del self.themes[name]` (a missing key raises
`KeyError` before anything is written, so the state is returned unchanged),
then `dump`, then `use_default_theme` when the removed name was selected. -/
def removeTheme (st : MState) (fs : FS) (name : String) :
    Except String Unit × MState × FS :=
  if (keys st.themes).contains name then
    let themes' := dictErase st.themes name
    let st' := { st with themes := themes' }
    let fs' := { fs with db := dump themes' }
    let st'' := if st'.themename = some name then use_default_theme st' else st'
    (.ok (), st'', fs')
  else
    (.error "KeyError", st, fs)

/-- Config fragments touched by `Theme.apply`, each file as its line list
(`none` = file does not exist), plus the log of `feh` invocations. -/
structure AppFS where
  rofiConf : Option (List String) := none
  polybarConf : Option (List String) := none
  alacrittyConf : Option (List String) := none
  fehCalls : List String := []
deriving DecidableEq, Repr

/-- Lines of the rofi `config.rasi` fragment written by `_apply_rofi`:
the f-string's leading newline, two indented import directives, and the
indented tail before the closing quotes. -/
def rofiContent (name : String) : List String :=
  ["",
   "                @import \"layout.rasi\"",
   "                @import \"themes/" ++ name ++ ".rasi\"",
   "                "]

/-- Line of the polybar `colors` fragment written by `_apply_polybar`. -/
def polybarContent (name : String) : List String :=
  ["include-file=\x27~/.config/polybar/themes/" ++ name ++ "\x27"]

/-- The replacement line `_apply_alacritty` puts in place of the last
non-blank line. -/
def alacrittyLine (name : String) : String :=
  "colors: *" ++ name ++ "-theme"

/-- Python `while not lines[-1]: lines.pop()` run to completion: drop the
trailing run of empty strings. -/
def stripTrailingBlank (l : List String) : List String :=
  ((l.reverse).dropWhile (fun s => s = "")).reverse

/-- `_apply_alacritty` on the lines of an existing file: drop trailing
blanks (popping everything makes `lines[-1]` raise `IndexError`, hence
`none`), replace the last remaining line with the alias reference, and
re-append one empty line. -/
def alacrittyTransform (name : String) (lines : List String) : Option (List String) :=
  let stripped := stripTrailingBlank lines
  match stripped with
  | [] => none
  | _ => some (stripped.dropLast ++ [alacrittyLine name, ""])

/-- `Theme.apply` (src/main.py lines 54-63): each truthy field triggers its
side effect in order; `gtk_theme` has none.  A `none` result is a raised
exception: alacritty's config missing (`FileNotFoundError`) or all-blank
(`IndexError`). -/
def Theme.applyFS (t : Theme) (fs : AppFS) : Option AppFS :=
  let fs1 :=
    if optTruthy t.wallpaper then
      { fs with fehCalls := fs.fehCalls ++ [t.wallpaper.getD ""] }
    else fs
  let fs2 :=
    if optTruthy t.rofi_theme then
      { fs1 with rofiConf := some (rofiContent (t.rofi_theme.getD "")) }
    else fs1
  let fs3 :=
    if optTruthy t.polybar_theme then
      { fs2 with polybarConf := some (polybarContent (t.polybar_theme.getD "")) }
    else fs2
  if optTruthy t.alacritty_theme then
    match fs3.alacrittyConf with
    | none => none
    | some lines =>
      match alacrittyTransform (t.alacritty_theme.getD "") lines with
      | none => none
      | some lines' => some { fs3 with alacrittyConf := some lines' }
  else some fs3

/- Specification-side definitions.  These follow the wording of the spec
sentences the claims quote, to be compared with the embedded code above. -/

/-- The name picked before re-validation, per the code's three-way branch:
a truthy argument, else the stripped pointer-file content, else the default
rule.  (The spec's "name stored in the pointer file" is read modulo
surrounding whitespace, which §6 treats as file formatting.) -/
def preResolve (arg : Option String) (pointer : Option String) (themes : ThemeMap) :
    Option String :=
  if optTruthy arg then arg
  else
    match pointer with
    | some content => some (pyStrip content)
    | none => defaultName themes

/-- Resolution rule exactly as claim C2 words it: an explicit argument
whenever one is given (even the empty string), else the stored pointer name,
else the default rule; then the default rule again when the choice is not a
key. -/
def specResolve (arg : Option String) (pointer : Option String) (themes : ThemeMap) :
    Option String :=
  let r :=
    match arg with
    | some a => some a
    | none =>
      match pointer with
      | some content => some (pyStrip content)
      | none => defaultName themes
  if memKeys r themes then r else defaultName themes

/-- Resolution rule as amended: an empty-string argument is ignored, exactly
as a missing one, because the code tests the argument for truthiness. -/
def specResolveAmended (arg : Option String) (pointer : Option String)
    (themes : ThemeMap) : Option String :=
  let r := preResolve arg pointer themes
  if memKeys r themes then r else defaultName themes

/-- Pointer-write condition as amended claim C3 states it: the argument was
not `None` and the pre-validation name is a valid key, or re-validation
fell back and the default rule yielded a name. -/
def specWritesAmended (arg : Option String) (pointer : Option String)
    (themes : ThemeMap) : Bool :=
  (memKeys (preResolve arg pointer themes) themes && arg.isSome) ||
    (!(memKeys (preResolve arg pointer themes) themes) && (defaultName themes).isSome)

/-- Selection invariant of claim C5 on the in-memory state: the selected
name is a key of the themes dict, or no name is selected and the dict is
empty. -/
def selInvBool (st : MState) : Bool :=
  match st.themename with
  | some n => (keys st.themes).contains n
  | none => st.themes.isEmpty

/- Helper lemmas. -/

theorem themeOfEntry_asdict (t : Theme) : themeOfEntry t.asdict = .ok t := by
  cases t
  rfl

theorem loadEntries_asdict (L : ThemeMap) :
    loadEntries (L.map (fun nt => (nt.1, nt.2.asdict))) = .ok L := by
  induction L with
  | nil => rfl
  | cons hd tl ih =>
    obtain ⟨n, t⟩ := hd
    simp [loadEntries, themeOfEntry_asdict, ih]

theorem dictLookup_eq_none_iff (l : ThemeMap) (n : String) :
    dictLookup l n = none ↔ n ∉ keys l := by
  induction l with
  | nil => simp [dictLookup, keys]
  | cons hd tl ih =>
    obtain ⟨k, v⟩ := hd
    by_cases hk : k = n
    · subst hk
      simp [dictLookup, keys]
    · simp only [dictLookup, if_neg hk, ih, keys, List.map_cons, List.mem_cons]
      constructor
      · rintro hn (h | h)
        · exact hk h.symm
        · exact hn h
      · intro hn h
        exact hn (Or.inr h)

theorem dictLookup_eq_some_iff (l : ThemeMap) (hnd : (keys l).Nodup) (n : String)
    (t : Theme) : dictLookup l n = some t ↔ (n, t) ∈ l := by
  induction l with
  | nil => simp [dictLookup]
  | cons hd tl ih =>
    obtain ⟨k, v⟩ := hd
    simp only [keys, List.map_cons, List.nodup_cons] at hnd
    by_cases hk : k = n
    · subst hk
      have hL : dictLookup ((k, v) :: tl) k = some v := by simp [dictLookup]
      rw [hL]
      constructor
      · intro h
        obtain rfl : v = t := Option.some.inj h
        exact List.mem_cons_self _ _
      · intro h
        rcases List.mem_cons.mp h with h | h
        · injection h with h1 h2
          rw [h2]
        · exact absurd (List.mem_map_of_mem Prod.fst h) hnd.1
    · simp only [dictLookup, if_neg hk, ih hnd.2, List.mem_cons, Prod.mk.injEq]
      constructor
      · exact Or.inr
      · rintro (⟨rfl, -⟩ | h)
        · exact absurd rfl hk
        · exact h

theorem dictLookup_perm (l l' : ThemeMap) (hp : l.Perm l')
    (hnd : (keys l).Nodup) (n : String) : dictLookup l n = dictLookup l' n := by
  have hkp : (keys l).Perm (keys l') := hp.map Prod.fst
  have hnd' : (keys l').Nodup := hkp.nodup_iff.mp hnd
  cases h : dictLookup l n with
  | none =>
    have := (dictLookup_eq_none_iff l n).mp h
    exact ((dictLookup_eq_none_iff l' n).mpr (fun hmem => this (hkp.mem_iff.mpr hmem))).symm
  | some t =>
    have hmem : (n, t) ∈ l' := hp.subset ((dictLookup_eq_some_iff l hnd n t).mp h)
    exact ((dictLookup_eq_some_iff l' hnd' n t).mpr hmem).symm

theorem load_themes_dump (M : ThemeMap) :
    load_themes (dump M) = .ok (sortEntries M) := by
  simp [load_themes, dump, loadEntries_asdict]

theorem sortEntries_perm (M : ThemeMap) : (sortEntries M).Perm M :=
  List.perm_insertionSort _ M

theorem contains_iff_mem (l : List String) (n : String) :
    l.contains n = true ↔ n ∈ l := by
  simp [List.contains, List.elem_iff]

theorem use_default_theme_themes (st : MState) :
    (use_default_theme st).themes = st.themes := by
  simp only [use_default_theme]
  split <;> rfl

theorem use_default_theme_themename (st : MState) :
    (use_default_theme st).themename = defaultName st.themes := by
  simp only [use_default_theme]
  split <;> rfl

theorem defaultName_contains (themes : ThemeMap) (n : String)
    (h : defaultName themes = some n) : (keys themes).contains n = true := by
  unfold defaultName at h
  cases hs : sortedKeys themes with
  | nil => rw [hs] at h; cases h
  | cons a t =>
    rw [hs] at h
    obtain rfl : a = n := Option.some.inj h
    have hmem : a ∈ sortedKeys themes := by rw [hs]; exact List.mem_cons_self _ _
    have : a ∈ keys themes := (List.perm_insertionSort _ (keys themes)).subset hmem
    exact (contains_iff_mem _ _).mpr this

theorem defaultName_eq_none (themes : ThemeMap) (h : defaultName themes = none) :
    themes = [] := by
  unfold defaultName at h
  have hs : sortedKeys themes = [] := List.head?_eq_none_iff.mp h
  have hperm : (keys themes).Perm (sortedKeys themes) :=
    (List.perm_insertionSort _ _).symm
  rw [hs] at hperm
  exact List.map_eq_nil_iff.mp hperm.eq_nil

theorem dictLookup_isSome_of_contains (l : ThemeMap) (n : String)
    (h : (keys l).contains n = true) : ∃ t, dictLookup l n = some t := by
  cases hL : dictLookup l n with
  | some t => exact ⟨t, rfl⟩
  | none =>
    exact absurd ((contains_iff_mem _ _).mp h)
      ((dictLookup_eq_none_iff l n).mp hL)

theorem select_theme_char (st : MState) (fs : FS) (arg : Option String) :
    (select_theme st fs arg).st.themes = st.themes ∧
    (select_theme st fs arg).st.themename = specResolveAmended arg fs.pointer st.themes ∧
    (select_theme st fs arg).wrote = specWritesAmended arg fs.pointer st.themes ∧
    (select_theme st fs arg).fs =
      (if (select_theme st fs arg).wrote = true then
        { fs with pointer := (select_theme st fs arg).st.themename }
      else fs) := by
  by_cases h1 : optTruthy arg = true
  · -- truthy argument: the pre-validation name is the argument itself
    obtain ⟨a, rfl⟩ : ∃ a, arg = some a := by
      cases arg with
      | none => simp [optTruthy] at h1
      | some a => exact ⟨a, rfl⟩
    by_cases h2 : memKeys (some a) st.themes = true
    · obtain ⟨t, ht⟩ := dictLookup_isSome_of_contains st.themes a h2
      have hmem : a ∈ keys st.themes := (contains_iff_mem _ _).mp h2
      simp [select_theme, specResolveAmended, specWritesAmended, preResolve, memKeys, h1,
        hmem, ht]
    · have hmem : ¬ a ∈ keys st.themes := fun hm => h2 ((contains_iff_mem _ _).mpr hm)
      cases hd : defaultName st.themes with
      | some m =>
        obtain ⟨t, ht⟩ :=
          dictLookup_isSome_of_contains st.themes m (defaultName_contains _ _ hd)
        simp [select_theme, specResolveAmended, specWritesAmended, preResolve, memKeys, h1,
          hmem, hd, ht, use_default_theme_themes, use_default_theme_themename]
      | none =>
        simp [select_theme, specResolveAmended, specWritesAmended, preResolve, memKeys, h1,
          hmem, hd, use_default_theme_themes, use_default_theme_themename]
  · -- falsy argument: the pointer file or the default rule decides
    cases hp : fs.pointer with
    | some c =>
      by_cases h2 : memKeys (some (pyStrip c)) st.themes = true
      · obtain ⟨t, ht⟩ := dictLookup_isSome_of_contains st.themes (pyStrip c) h2
        have hmem : pyStrip c ∈ keys st.themes := (contains_iff_mem _ _).mp h2
        cases harg : arg.isSome <;>
          simp [select_theme, specResolveAmended, specWritesAmended, preResolve, memKeys, h1,
            hp, harg, hmem, ht]
      · have hmem : ¬ pyStrip c ∈ keys st.themes :=
          fun hm => h2 ((contains_iff_mem _ _).mpr hm)
        cases hd : defaultName st.themes with
        | some m =>
          obtain ⟨t, ht⟩ :=
            dictLookup_isSome_of_contains st.themes m (defaultName_contains _ _ hd)
          simp [select_theme, specResolveAmended, specWritesAmended, preResolve, memKeys, h1,
            hp, hmem, hd, ht, use_default_theme_themes, use_default_theme_themename]
        | none =>
          simp [select_theme, specResolveAmended, specWritesAmended, preResolve, memKeys, h1,
            hp, hmem, hd, use_default_theme_themes, use_default_theme_themename]
    | none =>
      cases hd : defaultName st.themes with
      | some m =>
        have hc := defaultName_contains st.themes m hd
        have hmem : m ∈ keys st.themes := (contains_iff_mem _ _).mp hc
        obtain ⟨t, ht⟩ := dictLookup_isSome_of_contains st.themes m hc
        cases harg : arg.isSome <;>
          simp [select_theme, specResolveAmended, specWritesAmended, preResolve, memKeys, h1,
            hp, hd, harg, hmem, ht, use_default_theme_themes, use_default_theme_themename]
      | none =>
        simp [select_theme, specResolveAmended, specWritesAmended, preResolve, memKeys, h1,
          hp, hd, use_default_theme_themes, use_default_theme_themename]

theorem specResolveAmended_good (arg pointer : Option String) (themes : ThemeMap) :
    (∀ n, specResolveAmended arg pointer themes = some n →
      (keys themes).contains n = true) ∧
    (specResolveAmended arg pointer themes = none → themes = []) := by
  simp only [specResolveAmended]
  cases hm : memKeys (preResolve arg pointer themes) themes with
  | true =>
    rw [if_pos rfl]
    cases hpre : preResolve arg pointer themes with
    | none => rw [hpre] at hm; cases hm
    | some n =>
      rw [hpre] at hm
      exact ⟨fun n' hn' => (Option.some.inj hn') ▸ hm, fun h => by cases h⟩
  | false =>
    rw [if_neg (by simp [hm])]
    exact ⟨fun n hn => defaultName_contains _ _ hn, fun h => defaultName_eq_none _ h⟩

theorem selInvBool_use_default (st : MState) :
    selInvBool (use_default_theme st) = true := by
  unfold selInvBool
  rw [use_default_theme_themename, use_default_theme_themes]
  cases hd : defaultName st.themes with
  | some m => exact defaultName_contains _ _ hd
  | none => simp [defaultName_eq_none _ hd]

theorem keys_dictInsert (l : ThemeMap) (n : String) (t : Theme) :
    keys (dictInsert l n t) =
      (if (keys l).contains n = true then keys l else keys l ++ [n]) := by
  unfold dictInsert
  split
  · unfold keys
    rw [List.map_map]
    apply List.map_congr_left
    intro kv _
    by_cases hk : kv.1 = n
    · simp [Function.comp, hk]
    · simp [Function.comp, hk]
  · simp [keys]

theorem mem_keys_dictErase (l : ThemeMap) (name m : String) (hne : m ≠ name)
    (h : m ∈ keys l) : m ∈ keys (dictErase l name) := by
  obtain ⟨kv, hkv, hfst⟩ := List.mem_map.mp h
  refine List.mem_map.mpr ⟨kv, List.mem_filter.mpr ⟨hkv, ?_⟩, hfst⟩
  simp [hfst, hne]

theorem loadEntries_known (es : List (String × RawEntry)) :
    (∀ e ∈ es, e.2.all (fun kv => themeFieldNames.contains kv.1) = true) →
    loadEntries es = .ok (es.map (fun ne => (ne.1, themeOfKnownEntry ne.2))) := by
  induction es with
  | nil => intro _; rfl
  | cons hd tl ih =>
    intro hall
    obtain ⟨n, e⟩ := hd
    have he : themeOfEntry e = .ok (themeOfKnownEntry e) := by
      unfold themeOfEntry
      exact if_pos (hall (n, e) (List.mem_cons_self _ _))
    have htl := ih (fun x hx => hall x (List.mem_cons_of_mem _ hx))
    simp [loadEntries, he, htl]

theorem alacrittyLine_ne_empty (name : String) : alacrittyLine name ≠ "" := by
  intro h
  have hlen := congrArg String.length h
  simp [alacrittyLine, String.length_append] at hlen
  exact absurd hlen.1.1 (by decide)

theorem stripTrailingBlank_append_blank (xs : List String) (y : String) (hy : y ≠ "") :
    stripTrailingBlank (xs ++ [y, ""]) = xs ++ [y] := by
  unfold stripTrailingBlank
  rw [show xs ++ [y, ""] = (xs ++ [y]) ++ [""] by simp, List.reverse_append]
  simp [List.dropWhile, hy]

theorem alacrittyTransform_idem (name : String) (ls ls' : List String)
    (h : alacrittyTransform name ls = some ls') :
    alacrittyTransform name ls' = some ls' := by
  unfold alacrittyTransform at h ⊢
  cases hs : stripTrailingBlank ls with
  | nil => rw [hs] at h; cases h
  | cons a t =>
    rw [hs] at h
    obtain rfl := Option.some.inj h
    rw [stripTrailingBlank_append_blank _ _ (alacrittyLine_ne_empty name)]
    cases h2 : (a :: t).dropLast ++ [alacrittyLine name] with
    | nil => exact absurd h2 (by simp)
    | cons b bt =>
      show some ((b :: bt).dropLast ++ [alacrittyLine name, ""]) =
        some ((a :: t).dropLast ++ [alacrittyLine name, ""])
      rw [← h2, List.dropLast_concat]

theorem head_dropWhile_false (p : String → Bool) (l : List String) :
    ∀ (a : String) (as : List String), l.dropWhile p = a :: as → p a = false := by
  induction l with
  | nil => intro a as h; cases h
  | cons x xs ih =>
    intro a as h
    cases hx : p x with
    | true =>
      rw [List.dropWhile_cons, if_pos hx] at h
      exact ih a as h
    | false =>
      rw [List.dropWhile_cons, if_neg (by simp [hx])] at h
      injection h with h1 h2
      rw [← h1]
      exact hx

/- Claim theorems. -/

/-- C2 counterexample: for themes `{"a", "b"}`, pointer file holding `"b"`,
and the explicit (empty-string) argument `""`, the code resolves the
selection to `"b"` — the argument is falsy, so the pointer file wins —
while the claimed resolution order (explicit argument first whenever one is
given, then re-validation fallback to the alphabetical default) yields
`"a"`. -/
theorem c2_counterexample :
    (select_theme ⟨[("a", Theme.empty), ("b", Theme.empty)], none, Theme.empty⟩
        ⟨some "b", .missing⟩ (some "")).st.themename = some "b" ∧
    specResolve (some "") (some "b") [("a", Theme.empty), ("b", Theme.empty)] = some "a" ∧
    (some "b" : Option String) ≠ some "a" :=
  ⟨by decide, by decide, by decide⟩

/-- C2 (amended): `select_theme` resolves the selected name in this order: a
non-empty explicit name argument if given (an empty-string argument is
ignored, as if absent); otherwise the name stored in the pointer file
(stripped of surrounding whitespace) if that file exists; otherwise the
alphabetically first theme name, or no theme when the mapping is empty; and
if the name so resolved is not a key of the themes mapping, the
alphabetical-default rule applies again.  In particular, for themes
`{"b", "a", "c"}` with no pointer file and no argument, the resolved
selection is `"a"`. -/
theorem c2_resolution (st : MState) (fs : FS) (arg : Option String) :
    (select_theme st fs arg).st.themename = specResolveAmended arg fs.pointer st.themes ∧
    (select_theme ⟨[("b", Theme.empty), ("a", Theme.empty), ("c", Theme.empty)],
        none, Theme.empty⟩ ⟨none, .missing⟩ none).st.themename = some "a" :=
  ⟨(select_theme_char st fs arg).2.1, by decide⟩

/-- C3 counterexample: at themes `{"a", "b"}`, pointer file holding `"b"`,
and explicit argument `""`, the code does write the pointer file — it
re-writes the pointer-derived name `"b"` because the argument is not `None`
— although per the claim the name came from the pointer file (not the
argument) and, under the claim's resolution, fallback produced `"a"`, so the
claimed written name would be `"a"`, not the `"b"` the code writes. -/
theorem c3_counterexample :
    (select_theme ⟨[("a", Theme.empty), ("b", Theme.empty)], none, Theme.empty⟩
        ⟨some "b", .missing⟩ (some "")).wrote = true ∧
    (select_theme ⟨[("a", Theme.empty), ("b", Theme.empty)], none, Theme.empty⟩
        ⟨some "b", .missing⟩ (some "")).fs.pointer = some "b" ∧
    specResolve (some "") (some "b") [("a", Theme.empty), ("b", Theme.empty)] = some "a" ∧
    (some "b" : Option String) ≠ some "a" :=
  ⟨by decide, by decide, by decide, by decide⟩

/-- C3 (amended): `select_theme` writes to the pointer file exactly when the
argument was not `None` and the pre-validation name is a valid key, or when
re-validation fallback to the default rule occurred and produced a non-null
name; what it writes is always the finally resolved name, and when no write
occurs the external files are untouched.  In particular `select_theme "y"`
with `"y"` a valid key writes `"y"` to the pointer file (leaving the
database alone), and a subsequent fresh Manager construction on the
resulting files, with no explicit name, resolves the selection to `"y"`
whenever `"y"` is a key of the freshly loaded mapping. -/
theorem c3_persistence (st : MState) (fs : FS) (arg : Option String) :
    ((select_theme st fs arg).wrote = specWritesAmended arg fs.pointer st.themes) ∧
    ((select_theme st fs arg).wrote = true →
      (select_theme st fs arg).fs.pointer = (select_theme st fs arg).st.themename) ∧
    ((select_theme st fs arg).wrote = false → (select_theme st fs arg).fs = fs) ∧
    ((keys st.themes).contains "y" = true →
      (select_theme st fs (some "y")).fs.pointer = some "y" ∧
      (select_theme st fs (some "y")).fs.db = fs.db ∧
      ∀ res, managerInit (select_theme st fs (some "y")).fs = .ok res →
        (keys res.st.themes).contains "y" = true → res.st.themename = some "y") := by
  obtain ⟨-, hname, hwrote, hfs⟩ := select_theme_char st fs arg
  refine ⟨hwrote, ?_, ?_, ?_⟩
  · intro hw
    rw [hfs, if_pos hw]
  · intro hw
    rw [hfs, hw]
    simp
  · intro hy
    obtain ⟨-, hname', hwrote', hfs'⟩ := select_theme_char st fs (some "y")
    have hmem : "y" ∈ keys st.themes := (contains_iff_mem _ _).mp hy
    have hres : (select_theme st fs (some "y")).st.themename = some "y" := by
      rw [hname']
      simp [specResolveAmended, preResolve, optTruthy, memKeys, hmem]
    have hw : (select_theme st fs (some "y")).wrote = true := by
      rw [hwrote']
      simp [specWritesAmended, preResolve, optTruthy, memKeys, hmem]
    have hfseq : (select_theme st fs (some "y")).fs =
        { fs with pointer := some "y" } := by
      rw [hfs', if_pos hw, hres]
    refine ⟨by rw [hfseq], by rw [hfseq], ?_⟩
    intro res hinit hkey
    simp only [managerInit] at hinit
    cases hload : load_themes (select_theme st fs (some "y")).fs.db with
    | error msg => rw [hload] at hinit; cases hinit
    | ok themes₂ =>
      rw [hload] at hinit
      obtain rfl : select_theme ⟨themes₂, none, Theme.empty⟩
          (select_theme st fs (some "y")).fs none = res := by
        injection hinit
      obtain ⟨hth2, hname2, -, -⟩ :=
        select_theme_char ⟨themes₂, none, Theme.empty⟩ (select_theme st fs (some "y")).fs none
      rw [hth2] at hkey
      have hmem2 : "y" ∈ keys themes₂ := (contains_iff_mem _ _).mp hkey
      have hps : pyStrip "y" = "y" := by decide
      rw [hname2, hfseq]
      simp [specResolveAmended, preResolve, optTruthy, memKeys, hps, hmem2]

/-- C1: for any in-memory themes mapping with distinct names, `dump()`
followed by `load_themes()` yields a mapping equal to the original: the same
entries (a permutation, i.e. dict equality up to the irrelevant order) and
the same value, field for field, at every name.  Absent and explicit-null
fields coincide because both embed as `none` in `Theme`. -/
theorem c1_dump_load_roundtrip (M : ThemeMap) (h : (keys M).Nodup) :
    ∃ M', load_themes (dump M) = .ok M' ∧ M'.Perm M ∧
      ∀ n, dictLookup M' n = dictLookup M n := by
  refine ⟨sortEntries M, load_themes_dump M, sortEntries_perm M, fun n => ?_⟩
  exact dictLookup_perm _ _ (sortEntries_perm M)
    (((sortEntries_perm M).map Prod.fst).nodup_iff.mpr h) n

/-- Witness for C1 at a concrete two-theme mapping with one set field. -/
theorem c1_witness :
    (keys [("b", Theme.empty), ("a", { wallpaper := some "/tmp/a.png" })]).Nodup ∧
    (∃ M', load_themes (dump [("b", Theme.empty), ("a", { wallpaper := some "/tmp/a.png" })]) = .ok M' ∧
      M'.Perm [("b", Theme.empty), ("a", { wallpaper := some "/tmp/a.png" })] ∧
      ∀ n, dictLookup M' n =
        dictLookup [("b", Theme.empty), ("a", { wallpaper := some "/tmp/a.png" })] n) :=
  ⟨by decide, c1_dump_load_roundtrip _ (by decide)⟩

/-- Witness for C3 at a one-theme mapping: selecting `"y"` writes the
pointer file, and a fresh Manager over the written files selects `"y"`. -/
theorem c3_witness :
    (select_theme ⟨[("y", Theme.empty)], none, Theme.empty⟩
        ⟨none, dump [("y", Theme.empty)]⟩ (some "y")).fs.pointer = some "y" ∧
    (select_theme ⟨[("y", Theme.empty)], none, Theme.empty⟩
        ⟨none, dump [("y", Theme.empty)]⟩ (some "y")).wrote = true ∧
    (select_theme ⟨[("y", Theme.empty)], none, Theme.empty⟩
        (select_theme ⟨[("y", Theme.empty)], none, Theme.empty⟩
          ⟨none, dump [("y", Theme.empty)]⟩ (some "y")).fs none).st.themename = some "y" := by
  have h := c3_persistence ⟨[("y", Theme.empty)], none, Theme.empty⟩
    ⟨none, dump [("y", Theme.empty)]⟩ (some "y")
  refine ⟨(h.2.2.2 (by decide)).1, ?_, ?_⟩
  · rw [h.1]
    decide
  · exact (h.2.2.2 (by decide)).2.2 _ rfl (by decide)

/-- C4: `remove(name)` deletes `name` from the themes mapping and persists
the mapping to the database file, leaving the pointer file alone; when the
name is absent the `KeyError` propagates with the in-memory mapping and both
files unchanged; and when the removed name was the active selection the
post-state selection is the alphabetical-default rule re-evaluated over the
remaining themes (otherwise the selection is untouched). -/
theorem c4_remove (st : MState) (fs : FS) (name : String) :
    ((keys st.themes).contains name = false →
      removeTheme st fs name = (.error "KeyError", st, fs)) ∧
    ((keys st.themes).contains name = true →
      (removeTheme st fs name).1 = .ok () ∧
      (removeTheme st fs name).2.1.themes = dictErase st.themes name ∧
      (removeTheme st fs name).2.2 = { fs with db := dump (dictErase st.themes name) } ∧
      (st.themename = some name →
        (removeTheme st fs name).2.1.themename = defaultName (dictErase st.themes name)) ∧
      (st.themename ≠ some name →
        (removeTheme st fs name).2.1.themename = st.themename)) := by
  constructor
  · intro h
    have hnm : ¬ name ∈ keys st.themes := by simpa using h
    simp [removeTheme, hnm]
  · intro h
    have hmem : name ∈ keys st.themes := (contains_iff_mem _ _).mp h
    by_cases hn : st.themename = some name
    · simp [removeTheme, hmem, hn, use_default_theme_themes, use_default_theme_themename]
    · simp [removeTheme, hmem, hn]

/-- Witness for C4: removing an absent name errors and changes nothing;
removing the selected name re-runs the default rule over the remainder. -/
theorem c4_witness :
    removeTheme ⟨[("x", Theme.empty)], some "x", Theme.empty⟩ ⟨none, .missing⟩ "nope" =
      (.error "KeyError", ⟨[("x", Theme.empty)], some "x", Theme.empty⟩, ⟨none, .missing⟩) ∧
    (removeTheme ⟨[("x", Theme.empty)], some "x", Theme.empty⟩
        ⟨none, .missing⟩ "x").2.1.themename = defaultName (dictErase [("x", Theme.empty)] "x") :=
  ⟨(c4_remove ⟨[("x", Theme.empty)], some "x", Theme.empty⟩ ⟨none, .missing⟩ "nope").1
      (by decide),
   ((c4_remove ⟨[("x", Theme.empty)], some "x", Theme.empty⟩ ⟨none, .missing⟩ "x").2
      (by decide)).2.2.2.1 rfl⟩

/-- C5 counterexample: from the empty state (invariant holds), `append "z"`
leaves no name selected while the mapping becomes non-empty, so the claimed
invariant fails after an operation; moreover `remove` of the selected theme
leaves the persisted pointer file naming the removed theme, which is no
longer a key, so the claimed invariant also fails for the persisted
selection. -/
theorem c5_counterexample :
    selInvBool ⟨[], none, Theme.empty⟩ = true ∧
    selInvBool (appendTheme ⟨[], none, Theme.empty⟩ ⟨none, .missing⟩ "z").1 = false ∧
    (removeTheme ⟨[("a", Theme.empty), ("x", Theme.empty)], some "x", Theme.empty⟩
        ⟨some "x", .missing⟩ "x").1 = .ok () ∧
    (removeTheme ⟨[("a", Theme.empty), ("x", Theme.empty)], some "x", Theme.empty⟩
        ⟨some "x", .missing⟩ "x").2.2.pointer = some "x" ∧
    (keys (removeTheme ⟨[("a", Theme.empty), ("x", Theme.empty)], some "x", Theme.empty⟩
        ⟨some "x", .missing⟩ "x").2.1.themes).contains "x" = false ∧
    (removeTheme ⟨[("a", Theme.empty), ("x", Theme.empty)], some "x", Theme.empty⟩
        ⟨some "x", .missing⟩ "x").2.1.themes ≠ [] :=
  ⟨by decide, by decide, rfl, by decide, by decide, by decide⟩

/-- C5 (amended): the in-memory selection invariant — the selected name is a
key of the themes mapping, or no name is selected and the mapping is empty —
is established by every `select_theme` call and preserved by `remove`; it is
preserved by `append` provided a theme is currently selected.  The persisted
pointer file is not kept in sync (e.g. `remove` leaves it naming the removed
theme) and is only re-validated by the next load. -/
theorem c5_invariant (st : MState) (fs : FS) (arg : Option String) (name : String) :
    selInvBool (select_theme st fs arg).st = true ∧
    (selInvBool st = true → st.themename.isSome = true →
      selInvBool (appendTheme st fs name).1 = true) ∧
    (selInvBool st = true → selInvBool (removeTheme st fs name).2.1 = true) := by
  obtain ⟨th, nm, t0⟩ := st
  refine ⟨?_, ?_, ?_⟩
  · obtain ⟨hth, hname, -, -⟩ := select_theme_char ⟨th, nm, t0⟩ fs arg
    have hgood := specResolveAmended_good arg fs.pointer th
    unfold selInvBool
    rw [hth, hname]
    cases hP : specResolveAmended arg fs.pointer th with
    | some n => exact hgood.1 n hP
    | none => simp [hgood.2 hP]
  · intro hinv hsome
    obtain ⟨m, hm⟩ := Option.isSome_iff_exists.mp hsome
    dsimp only at hm
    subst hm
    have hinv' : (keys th).contains m = true := hinv
    have hgoal : selInvBool (appendTheme ⟨th, some m, t0⟩ fs name).1 =
        (keys (dictInsert th name Theme.empty)).contains m := rfl
    rw [hgoal, keys_dictInsert]
    have hmem : m ∈ keys th := (contains_iff_mem _ _).mp hinv'
    split
    · exact hinv'
    · exact (contains_iff_mem _ _).mpr (List.mem_append_left _ hmem)
  · intro hinv
    unfold removeTheme
    dsimp only
    by_cases hc : (keys th).contains name = true
    · rw [if_pos hc]
      dsimp only
      by_cases hn : nm = some name
      · rw [if_pos hn]
        exact selInvBool_use_default _
      · rw [if_neg hn]
        cases nm with
        | none =>
          have hnil : th = [] := by
            cases hth2 : th with
            | nil => rfl
            | cons a l =>
              rw [hth2] at hinv
              exact absurd hinv (by simp [selInvBool])
          subst hnil
          simp [selInvBool, dictErase]
        | some m =>
          have hinv' : (keys th).contains m = true := hinv
          have hne : m ≠ name := fun hEq => hn (by rw [hEq])
          show (keys (dictErase th name)).contains m = true
          exact (contains_iff_mem _ _).mpr
            (mem_keys_dictErase _ _ _ hne ((contains_iff_mem _ _).mp hinv'))
    · rw [if_neg hc]
      exact hinv

/-- Witness for C5: the invariant facts at concrete one- and two-theme
states. -/
theorem c5_witness :
    selInvBool (appendTheme ⟨[("a", Theme.empty)], some "a", Theme.empty⟩
      ⟨none, .missing⟩ "b").1 = true ∧
    selInvBool (removeTheme ⟨[("a", Theme.empty), ("b", Theme.empty)], some "b", Theme.empty⟩
      ⟨some "b", .missing⟩ "b").2.1 = true :=
  ⟨(c5_invariant ⟨[("a", Theme.empty)], some "a", Theme.empty⟩ ⟨none, .missing⟩ none "b").2.1
      (by decide) (by decide),
   (c5_invariant ⟨[("a", Theme.empty), ("b", Theme.empty)], some "b", Theme.empty⟩
      ⟨some "b", .missing⟩ none "b").2.2 (by decide)⟩


/-- C6 counterexample: a database entry carrying an unknown field raises
`TypeError` in `Theme(**data)` instead of being ignored, so `load_themes`
propagates an error rather than parsing the entry. -/
theorem c6_counterexample :
    load_themes (.mapping [("t", [("colour", some "red")])]) =
      .error "TypeError: unexpected keyword argument" := rfl

/-- C6 (amended): `load_themes` yields an empty themes mapping when the
database file is missing and when the file's top-level YAML content is not a
mapping (no error in either case); every entry whose fields are all known
Theme fields parses into a Theme record without error, defaulting absent
fields (an entry with no fields at all gives the all-unset Theme); an entry
with an unknown field, however, raises a `TypeError` rather than being
ignored. -/
theorem c6_load_tolerance (es : List (String × RawEntry)) :
    load_themes .missing = .ok [] ∧
    load_themes .nonMapping = .ok [] ∧
    ((∀ e ∈ es, e.2.all (fun kv => themeFieldNames.contains kv.1) = true) →
      load_themes (.mapping es) =
        .ok (es.map (fun ne => (ne.1, themeOfKnownEntry ne.2)))) ∧
    themeOfKnownEntry [] = Theme.empty :=
  ⟨rfl, rfl, fun hall => loadEntries_known es hall, rfl⟩

/-- Witness for C6 at a two-entry database, one entry with a null field and
one with no fields. -/
theorem c6_witness :
    load_themes (.mapping [("t", [("wallpaper", some "/w.png"), ("gtk_theme", none)]), ("u", [])]) =
      .ok ([("t", [("wallpaper", some "/w.png"), ("gtk_theme", none)]), ("u", ([] : RawEntry))].map
        (fun ne => (ne.1, themeOfKnownEntry ne.2))) :=
  (c6_load_tolerance _).2.2.1 (by decide)

/-- C7: applying a theme a second time immediately after a successful apply
leaves every written config fragment (rofi, polybar, alacritty) exactly as
the first apply left it; the second apply succeeds and only the wallpaper
call log grows. -/
theorem c7_apply_idempotent (t : Theme) (fs fs₁ : AppFS)
    (h : t.applyFS fs = some fs₁) :
    ∃ fs₂, t.applyFS fs₁ = some fs₂ ∧
      fs₂.rofiConf = fs₁.rofiConf ∧ fs₂.polybarConf = fs₁.polybarConf ∧
      fs₂.alacrittyConf = fs₁.alacrittyConf := by
  cases h4 : optTruthy t.alacritty_theme with
  | false =>
    simp only [Theme.applyFS, h4, Bool.false_eq_true, if_false] at h ⊢
    obtain rfl := Option.some.inj h
    refine ⟨_, rfl, ?_, ?_, ?_⟩ <;>
      cases hw : optTruthy t.wallpaper <;>
      cases hr : optTruthy t.rofi_theme <;>
      cases hp2 : optTruthy t.polybar_theme <;>
      simp [hw, hr, hp2]
  | true =>
    cases ha : fs.alacrittyConf with
    | none =>
      exfalso
      cases hw : optTruthy t.wallpaper <;>
        cases hr : optTruthy t.rofi_theme <;>
        cases hp2 : optTruthy t.polybar_theme <;>
        simp [Theme.applyFS, h4, hw, hr, hp2, ha] at h
    | some lines =>
      cases htr : alacrittyTransform (t.alacritty_theme.getD "") lines with
      | none =>
        exfalso
        cases hw : optTruthy t.wallpaper <;>
          cases hr : optTruthy t.rofi_theme <;>
          cases hp2 : optTruthy t.polybar_theme <;>
          simp [Theme.applyFS, h4, hw, hr, hp2, ha, htr] at h
      | some lines' =>
        have hidem := alacrittyTransform_idem _ _ _ htr
        cases hw : optTruthy t.wallpaper <;>
          cases hr : optTruthy t.rofi_theme <;>
          cases hp2 : optTruthy t.polybar_theme <;>
          (simp only [Theme.applyFS, h4, hw, hr, hp2, ha, htr, if_true, if_false,
             Bool.false_eq_true, Option.some.injEq] at h ⊢
           subst h
           simp [hidem])

/-- Witness for C7: a theme touching all four resources, applied twice on a
filesystem whose alacritty config ends in a colors line. -/
theorem c7_witness :
    ∃ fs₂,
      Theme.applyFS
          { wallpaper := some "/w.png", rofi_theme := some "r",
            polybar_theme := some "p", gtk_theme := none, alacritty_theme := some "x" }
          { rofiConf := some (rofiContent "r"), polybarConf := some (polybarContent "p"),
            alacrittyConf := some ["font: x", "colors: *x-theme", ""],
            fehCalls := ["/w.png"] } = some fs₂ ∧
      fs₂.rofiConf = some (rofiContent "r") ∧
      fs₂.polybarConf = some (polybarContent "p") ∧
      fs₂.alacrittyConf = some ["font: x", "colors: *x-theme", ""] :=
  c7_apply_idempotent
    { wallpaper := some "/w.png", rofi_theme := some "r", polybar_theme := some "p",
      gtk_theme := none, alacritty_theme := some "x" }
    { rofiConf := none, polybarConf := none,
      alacrittyConf := some ["font: x", "colors: *y-theme", "", ""], fehCalls := [] }
    _ (by decide)


/-- C8: for a theme with `alacritty_theme` set (to a non-empty name) and an
existing alacritty config with at least one non-blank line, apply rewrites
the file to: the original lines with the trailing run of blank lines
removed, the last remaining line replaced by `colors: *<name>-theme`, and
one blank line re-appended.  The strip step is exactly a decomposition
`lines = s ++ blanks` with `s` non-empty and not ending in a blank. -/
theorem c8_alacritty_transform (name : String) (lines : List String)
    (h : ∃ l ∈ lines, l ≠ "") :
    stripTrailingBlank lines ≠ [] ∧
    (∃ k, lines = stripTrailingBlank lines ++ List.replicate k "") ∧
    (stripTrailingBlank lines).getLast? ≠ some "" ∧
    alacrittyTransform name lines =
      some ((stripTrailingBlank lines).dropLast ++ [alacrittyLine name, ""]) ∧
    (∀ (t : Theme) (afs : AppFS), t.alacritty_theme = some name → name ≠ "" →
      afs.alacrittyConf = some lines →
      ∃ afs', t.applyFS afs = some afs' ∧
        afs'.alacrittyConf =
          some ((stripTrailingBlank lines).dropLast ++ [alacrittyLine name, ""])) := by
  have hsne : stripTrailingBlank lines ≠ [] := by
    intro hs
    unfold stripTrailingBlank at hs
    obtain ⟨l, hl, hlne⟩ := h
    have hall := List.dropWhile_eq_nil_iff.mp (List.reverse_eq_nil_iff.mp hs)
    exact hlne (by simpa using hall l (List.mem_reverse.mpr hl))
  have htr : alacrittyTransform name lines =
      some ((stripTrailingBlank lines).dropLast ++ [alacrittyLine name, ""]) := by
    unfold alacrittyTransform
    cases hs : stripTrailingBlank lines with
    | nil => exact absurd hs hsne
    | cons a t => rfl
  refine ⟨hsne, ?_, ?_, htr, ?_⟩
  · refine ⟨(lines.reverse.takeWhile (fun x => x = "")).length, ?_⟩
    conv_lhs => rw [← lines.reverse_reverse,
      ← List.takeWhile_append_dropWhile (p := fun x => x = "") (l := lines.reverse)]
    rw [List.reverse_append]
    unfold stripTrailingBlank
    congr 1
    have hrep : lines.reverse.takeWhile (fun x => x = "") =
        List.replicate (lines.reverse.takeWhile (fun x => x = "")).length "" :=
      List.eq_replicate_of_mem (fun b hb => by simpa using List.mem_takeWhile_imp hb)
    rw [hrep, List.reverse_replicate, List.length_replicate]
  · unfold stripTrailingBlank
    rw [List.getLast?_reverse]
    cases hD : lines.reverse.dropWhile (fun x => x = "") with
    | nil => simp
    | cons d dt =>
      have := head_dropWhile_false _ _ _ _ hD
      simp only [List.head?_cons]
      intro hcontra
      rw [Option.some.injEq] at hcontra
      rw [hcontra] at this
      simp at this
  · intro t afs heq hne ha
    have h4 : optTruthy (some name) = true := by
      simp [optTruthy, hne]
    cases hw : optTruthy t.wallpaper <;>
      cases hr : optTruthy t.rofi_theme <;>
      cases hp2 : optTruthy t.polybar_theme <;>
      (simp only [Theme.applyFS, hw, hr, hp2, ha, heq, h4, if_true, if_false,
         Bool.false_eq_true, Option.getD_some] at *
       rw [htr]
       exact ⟨_, rfl, rfl⟩)

/-- Witness for C8 at a three-line file ending in one blank line, both for
the bare transform and through a theme's apply. -/
theorem c8_witness :
    (alacrittyTransform "x" ["font: f", "colors: *old-theme", ""] =
      some ((stripTrailingBlank ["font: f", "colors: *old-theme", ""]).dropLast ++
        [alacrittyLine "x", ""])) ∧
    (∃ afs', Theme.applyFS { alacritty_theme := some "x" }
        ⟨none, none, some ["font: f", "colors: *old-theme", ""], []⟩ = some afs' ∧
      afs'.alacrittyConf =
        some ((stripTrailingBlank ["font: f", "colors: *old-theme", ""]).dropLast ++
          [alacrittyLine "x", ""])) :=
  ⟨(c8_alacritty_transform "x" ["font: f", "colors: *old-theme", ""] (by decide)).2.2.2.1,
   (c8_alacritty_transform "x" ["font: f", "colors: *old-theme", ""] (by decide)).2.2.2.2
     { alacritty_theme := some "x" }
     ⟨none, none, some ["font: f", "colors: *old-theme", ""], []⟩ rfl (by decide) rfl⟩

/-- C9: constructing a Manager over an empty config directory (no pointer
file, no database) selects no theme, sets the all-unset `Theme()` as the
active record, and writes nothing; and applying any all-unset Theme is a
no-op: the filesystem state is returned unchanged, with no feh call. -/
theorem c9_empty_state :
    managerInit ⟨none, .missing⟩ =
      .ok ⟨⟨[], none, Theme.empty⟩, ⟨none, .missing⟩, false⟩ ∧
    (∀ t : Theme, t.wallpaper = none → t.rofi_theme = none → t.polybar_theme = none →
      t.gtk_theme = none → t.alacritty_theme = none →
      ∀ afs : AppFS, t.applyFS afs = some afs) := by
  refine ⟨rfl, ?_⟩
  intro t h1 h2 h3 h4 h5 afs
  cases t
  dsimp only at h1 h2 h3 h4 h5
  subst h1 h2 h3 h4 h5
  rfl

/-- Witness for C9: the all-unset theme applied to a non-trivial filesystem
state changes nothing. -/
theorem c9_witness :
    Theme.empty.applyFS ⟨some ["x"], none, some ["y"], ["f"]⟩ =
      some ⟨some ["x"], none, some ["y"], ["f"]⟩ :=
  c9_empty_state.2 Theme.empty rfl rfl rfl rfl rfl _

/-- C10: `apply` performs a field's side effect only when the field is a
non-empty string: setting any field to the empty string behaves exactly as
leaving it unset, and a Theme whose every field is unset or empty applies as
a no-op. -/
theorem c10_falsy_fields (t : Theme) :
    (∀ afs : AppFS, Theme.applyFS { t with wallpaper := some "" } afs =
      Theme.applyFS { t with wallpaper := none } afs) ∧
    (∀ afs : AppFS, Theme.applyFS { t with rofi_theme := some "" } afs =
      Theme.applyFS { t with rofi_theme := none } afs) ∧
    (∀ afs : AppFS, Theme.applyFS { t with polybar_theme := some "" } afs =
      Theme.applyFS { t with polybar_theme := none } afs) ∧
    (∀ afs : AppFS, Theme.applyFS { t with gtk_theme := some "" } afs =
      Theme.applyFS { t with gtk_theme := none } afs) ∧
    (∀ afs : AppFS, Theme.applyFS { t with alacritty_theme := some "" } afs =
      Theme.applyFS { t with alacritty_theme := none } afs) ∧
    ((t.wallpaper = none ∨ t.wallpaper = some "") →
      (t.rofi_theme = none ∨ t.rofi_theme = some "") →
      (t.polybar_theme = none ∨ t.polybar_theme = some "") →
      (t.gtk_theme = none ∨ t.gtk_theme = some "") →
      (t.alacritty_theme = none ∨ t.alacritty_theme = some "") →
      ∀ afs : AppFS, t.applyFS afs = some afs) := by
  refine ⟨fun afs => rfl, fun afs => rfl, fun afs => rfl, fun afs => rfl, fun afs => rfl, ?_⟩
  intro hw hr hp hg ha afs
  have h1 : optTruthy t.wallpaper = false := by rcases hw with h | h <;> rw [h] <;> rfl
  have h2 : optTruthy t.rofi_theme = false := by rcases hr with h | h <;> rw [h] <;> rfl
  have h3 : optTruthy t.polybar_theme = false := by rcases hp with h | h <;> rw [h] <;> rfl
  have h4 : optTruthy t.alacritty_theme = false := by rcases ha with h | h <;> rw [h] <;> rfl
  simp [Theme.applyFS, h1, h2, h3, h4]

/-- Witness for C10: a theme with every field unset or empty is a no-op. -/
theorem c10_witness :
    Theme.applyFS
        { wallpaper := some "", rofi_theme := none, polybar_theme := some "",
          gtk_theme := some "", alacritty_theme := none }
        ⟨none, none, none, []⟩ =
      some ⟨none, none, none, []⟩ :=
  (c10_falsy_fields _).2.2.2.2.2 (Or.inr rfl) (Or.inl rfl) (Or.inr rfl) (Or.inr rfl)
    (Or.inl rfl) _

end TinyThemeSwitcher
